import Mathlib

/-!
Shallow embedding of the RichErrors C library (marktsuchida/RichErrors):
the error-object model (RichErrors.c), the structured-info map (InfoMap.c),
the thread-scoped integer-code registry (Err2Code.c) and the dynamic-array
search/insert/erase primitives they share (DynArray.c / DynArray.h).

Modelling conventions:
  * C strings are byte lists (`List Nat`, each entry a byte value 0..255,
    never 0 since C strings cannot contain NUL).
  * `int32_t` values are `Int` with explicit wrapping where the C wraps.
  * Nullable pointers are `Option`.
  * Allocation outcomes are explicit `Bool` parameters (`true` = every
    `malloc`/`calloc`/`realloc` in the call succeeds); the C functions
    under study only branch on success/failure, never on the address.
  * Heap effects that matter to the claims (what `RERR_Error_Destroy`
    frees) are returned as explicit lists of released resources.
-/

namespace RichErrors

/-- Byte list of an ASCII string literal (convenience for the embedded
built-in names and test inputs). -/
def strBytes (s : String) : List Nat := s.data.map Char.toNat

/-- Sign-level embedding of C `strcmp` on NUL-free byte strings: the
end-of-string NUL (0) compares below every string byte, so a proper prefix
compares less. Only the sign of the C result is ever used. -/
def strcmp : List Nat → List Nat → Int
  | [], [] => 0
  | [], _ :: _ => -1
  | _ :: _, [] => 1
  | a :: as, b :: bs => if a < b then -1 else if b < a then 1 else strcmp as bs

theorem strcmp_self (a : List Nat) : strcmp a a = 0 := by
  induction a with
  | nil => rfl
  | cons x xs ih => simp [strcmp, ih]

theorem strcmp_range (a b : List Nat) :
    strcmp a b = -1 ∨ strcmp a b = 0 ∨ strcmp a b = 1 := by
  induction a generalizing b with
  | nil => cases b <;> simp [strcmp]
  | cons x xs ih =>
    cases b with
    | nil => simp [strcmp]
    | cons y ys =>
      by_cases hxy : x < y
      · simp [strcmp, hxy]
      · by_cases hyx : y < x
        · simp [strcmp, hxy, hyx]
        · simpa [strcmp, hxy, hyx] using ih ys

theorem strcmp_eq_zero_iff (a b : List Nat) : strcmp a b = 0 ↔ a = b := by
  induction a generalizing b with
  | nil => cases b <;> simp [strcmp]
  | cons x xs ih =>
    cases b with
    | nil => simp [strcmp]
    | cons y ys =>
      by_cases hxy : x < y
      · simp [strcmp, hxy]
        omega
      · by_cases hyx : y < x
        · simp [strcmp, hxy, hyx]
          omega
        · have hxey : x = y := by omega
          simp [strcmp, hxy, hyx, hxey, ih]

theorem strcmp_swap (a b : List Nat) : strcmp b a = -strcmp a b := by
  induction a generalizing b with
  | nil => cases b <;> simp [strcmp]
  | cons x xs ih =>
    cases b with
    | nil => simp [strcmp]
    | cons y ys =>
      by_cases hxy : x < y
      · have hyx : ¬ y < x := by omega
        simp [strcmp, hxy, hyx]
      · by_cases hyx : y < x
        · simp [strcmp, hxy, hyx]
        · simp [strcmp, hxy, hyx, ih]

theorem strcmp_trans_neg (a b c : List Nat) (hab : strcmp a b < 0)
    (hbc : strcmp b c < 0) : strcmp a c < 0 := by
  induction a generalizing b c with
  | nil =>
    cases b with
    | nil => simp [strcmp] at hab
    | cons y ys =>
      cases c with
      | nil => simp [strcmp] at hbc
      | cons z zs => simp [strcmp]
  | cons x xs ih =>
    cases b with
    | nil => simp [strcmp] at hab
    | cons y ys =>
      cases c with
      | nil => simp [strcmp] at hbc
      | cons z zs =>
        by_cases hxy : x < y
        · by_cases hyz : y < z
          · have hxz : x < z := by omega
            simp [strcmp, hxz]
          · by_cases hzy : z < y
            · simp [strcmp, hyz, hzy] at hbc
            · have hyez : y = z := by omega
              subst hyez
              simp [strcmp, hxy]
        · by_cases hyx : y < x
          · simp [strcmp, hxy, hyx] at hab
          · have hxey : x = y := by omega
            subst hxey
            by_cases hxz : x < z
            · simp [strcmp, hxz]
            · by_cases hzx : z < x
              · simp [strcmp, hxz, hzx] at hbc
              · simp [strcmp, hxy, hyx] at hab
                simp [strcmp, hxz, hzx] at hbc ⊢
                exact ih ys zs hab hbc

/-- If `x` sorts strictly before `y` then, against any key, `x` compares no
greater than `y` (the comparison results are signs in `{-1, 0, 1}`). -/
theorem strcmp_mono_left (x y k : List Nat) (hxy : strcmp x y < 0) :
    strcmp x k ≤ strcmp y k := by
  rcases strcmp_range y k with hy | hy | hy
  · -- y < k, hence x < k
    have : strcmp x k < 0 := strcmp_trans_neg x y k hxy (by omega)
    omega
  · -- y = k
    have : y = k := (strcmp_eq_zero_iff y k).mp hy
    subst this
    omega
  · rcases strcmp_range x k with hx | hx | hx <;> omega

/-!
`DynArray` search/insert/erase primitives (`DynArray.c` / `DynArray.h`).
The C binary-search loop keeps two pointers `left`/`right` into the element
array; we keep two indices. The loop terminates because the interval
strictly shrinks; we make this explicit with a `fuel` argument so that the
definition stays kernel-evaluable. The wrappers always pass
`arr.length + 1`, which the loop can never exhaust (each step consumes one
fuel and shrinks the interval by at least one).
-/

/-- Loop body of `BSearch` in `DynArray.c` (identical to
`DynArray_BSearch` in `DynArray.h`): on interval `[left, right)` over
elements `get 0, get 1, ...`, with `cmp e` the comparison of element `e`
against the search key; `exact = true` is `BSearchExact` (`none` = not
found), `exact = false` is `BSearchInsertionPoint`. -/
def bsearchLoop {α : Type} (cmp : α → Int) (get : Nat → α) (exact : Bool) :
    Nat → Nat → Nat → Option Nat
  | 0, left, _ => if exact then none else some left
  | fuel + 1, left, right =>
    if left = right then (if exact then none else some left)
    else
      let count := right - left
      let middle := left + count / 2
      let c := cmp (get middle)
      if c = 0 then some middle
      else if 0 < c then bsearchLoop cmp get exact fuel left middle
      else if left = middle then (if exact then none else some right)
      else bsearchLoop cmp get exact fuel middle right

/-- `DynArray_BSearchExact` over a list: index of an element comparing
equal to the key, or `none`. -/
def DynArray_BSearchExact {α β : Type} [Inhabited α] (arr : List α) (key : β)
    (cmp : α → β → Int) : Option Nat :=
  bsearchLoop (fun a => cmp a key) (fun i => arr.getD i default) true
    (arr.length + 1) 0 arr.length

/-- `DynArray_BSearchInsertionPoint` over a list: the index at which the
key would be inserted (the loop always returns a value in this mode). -/
def DynArray_BSearchInsertionPoint {α β : Type} [Inhabited α] (arr : List α)
    (key : β) (cmp : α → β → Int) : Nat :=
  (bsearchLoop (fun a => cmp a key) (fun i => arr.getD i default) false
    (arr.length + 1) 0 arr.length).getD arr.length

/-- `DynArray_InsertElem` / `RERR_DynArray_Insert`: make room at position
`i` (the tail is block-moved up) and store `x` there. -/
def DynArray_InsertElem {α : Type} (arr : List α) (i : Nat) (x : α) :
    List α :=
  arr.take i ++ [x] ++ arr.drop i

/-- `DynArray_EraseElem` / `RERR_DynArray_Erase`: remove the element at
position `i` (the tail is block-moved down). -/
def DynArray_EraseElem {α : Type} (arr : List α) (i : Nat) : List α :=
  arr.take i ++ arr.drop (i + 1)

/-- Exact-mode search only ever reports an index inside the interval whose
element compares equal to the key. -/
theorem bsearchLoop_exact_sound {α : Type} (cmp : α → Int) (get : Nat → α) :
    ∀ (fuel l r i : Nat), l ≤ r → bsearchLoop cmp get true fuel l r = some i →
      l ≤ i ∧ i < r ∧ cmp (get i) = 0 := by
  intro fuel
  induction fuel with
  | zero => intro l r i _ h; simp [bsearchLoop] at h
  | succ fuel ih =>
    intro l r i hle h
    by_cases hlr : l = r
    · simp [bsearchLoop, hlr] at h
    · simp only [bsearchLoop, if_neg hlr] at h
      set middle := l + (r - l) / 2 with hmid
      by_cases hc0 : cmp (get middle) = 0
      · simp only [hc0, if_pos rfl] at h
        have : middle = i := by injection h
        subst this
        exact ⟨by omega, by omega, hc0⟩
      · simp only [if_neg hc0] at h
        by_cases hcpos : 0 < cmp (get middle)
        · simp only [if_pos hcpos] at h
          have := ih l middle i (by omega) h
          refine ⟨this.1, by omega, this.2.2⟩
        · simp only [if_neg hcpos] at h
          by_cases hlm : l = middle
          · simp [hlm] at h
          · simp only [if_neg hlm] at h
            have := ih middle r i (by omega) h
            refine ⟨by omega, this.2.1, this.2.2⟩

/-- Exact-mode search finds a match whenever one exists, provided the
comparison is monotone along the interval (which binary search requires)
and the fuel covers the interval. -/
theorem bsearchLoop_exact_complete {α : Type} (cmp : α → Int) (get : Nat → α) :
    ∀ (fuel l r k : Nat), r - l ≤ fuel → l ≤ k → k < r →
      cmp (get k) = 0 →
      (∀ i j, l ≤ i → i ≤ j → j < r → cmp (get i) ≤ cmp (get j)) →
      (bsearchLoop cmp get true fuel l r).isSome := by
  intro fuel
  induction fuel with
  | zero => intro l r k hfuel hlk hkr _ _; omega
  | succ fuel ih =>
    intro l r k hfuel hlk hkr hk hmono
    have hlr : l ≠ r := by omega
    simp only [bsearchLoop, if_neg hlr]
    set middle := l + (r - l) / 2 with hmid
    have hml : l ≤ middle := by omega
    have hmr : middle < r := by omega
    by_cases hc0 : cmp (get middle) = 0
    · simp [hc0]
    · simp only [if_neg hc0]
      by_cases hcpos : 0 < cmp (get middle)
      · simp only [if_pos hcpos]
        -- the match lies strictly left of middle
        have hkm : k < middle := by
          by_contra hge
          have := hmono middle k hml (by omega) hkr
          omega
        exact ih l middle k (by omega) hlk hkm hk
          (fun i j hi hij hj => hmono i j hi hij (by omega))
      · simp only [if_neg hcpos]
        have hcneg : cmp (get middle) < 0 := by
          rcases lt_trichotomy (cmp (get middle)) 0 with h | h | h <;>
            first | exact h | exact absurd h hc0 | exact absurd h hcpos
        by_cases hlm : l = middle
        · -- singleton interval: the only candidate is middle, contradiction
          exfalso
          have hr1 : r = l + 1 := by omega
          have : k = middle := by omega
          rw [this] at hk
          omega
        · simp only [if_neg hlm]
          have hkm : middle ≤ k := by
            by_contra hlt
            have := hmono k middle hlk (by omega) hmr
            omega
          have hkm' : middle < k := by
            rcases Nat.eq_or_lt_of_le hkm with he | hlt
            · exfalso; rw [← he] at hk; omega
            · exact hlt
          exact ih middle r k (by omega) (by omega) hkr hk
            (fun i j hi hij hj => hmono i j (by omega) hij hj)

/-- Insertion-point search on an interval with no exact match and a
monotone comparison returns the unique boundary: everything before it
compares below the key, everything from it on compares above. -/
theorem bsearchLoop_insertion_point {α : Type} (cmp : α → Int) (get : Nat → α) :
    ∀ (fuel l r : Nat), r - l ≤ fuel → l ≤ r →
      (∀ i j, l ≤ i → i ≤ j → j < r → cmp (get i) ≤ cmp (get j)) →
      (∀ i, l ≤ i → i < r → cmp (get i) ≠ 0) →
      ∃ ip, bsearchLoop cmp get false fuel l r = some ip ∧ l ≤ ip ∧ ip ≤ r ∧
        (∀ i, l ≤ i → i < ip → cmp (get i) < 0) ∧
        (∀ i, ip ≤ i → i < r → 0 < cmp (get i)) := by
  intro fuel
  induction fuel with
  | zero =>
    intro l r hfuel hle _ _
    have : l = r := by omega
    subst this
    exact ⟨l, by simp [bsearchLoop], le_refl l, le_refl l,
      fun i h1 h2 => by omega, fun i h1 h2 => by omega⟩
  | succ fuel ih =>
    intro l r hfuel hle hmono hnomatch
    by_cases hlr : l = r
    · subst hlr
      exact ⟨l, by simp [bsearchLoop], le_refl l, le_refl l,
        fun i h1 h2 => by omega, fun i h1 h2 => by omega⟩
    · simp only [bsearchLoop, if_neg hlr]
      set middle := l + (r - l) / 2 with hmid
      have hml : l ≤ middle := by omega
      have hmr : middle < r := by omega
      have hc0 : cmp (get middle) ≠ 0 := hnomatch middle hml hmr
      simp only [if_neg hc0]
      by_cases hcpos : 0 < cmp (get middle)
      · simp only [if_pos hcpos]
        obtain ⟨ip, heq, h1, h2, h3, h4⟩ := ih l middle (by omega) hml
          (fun i j hi hij hj => hmono i j hi hij (by omega))
          (fun i hi hj => hnomatch i hi (by omega))
        refine ⟨ip, heq, h1, by omega, h3, ?_⟩
        intro i hip hir
        by_cases him : i < middle
        · exact h4 i hip him
        · have := hmono middle i hml (by omega) hir
          omega
      · simp only [if_neg hcpos]
        have hcneg : cmp (get middle) < 0 := by
          rcases lt_trichotomy (cmp (get middle)) 0 with h | h | h <;>
            first | exact h | exact absurd h hc0 | exact absurd h hcpos
        by_cases hlm : l = middle
        · simp only [if_pos hlm]
          have hr1 : r = l + 1 := by omega
          refine ⟨r, rfl, by omega, le_refl r, ?_, ?_⟩
          · intro i hi hir
            have : i = middle := by omega
            rw [this]; exact hcneg
          · intro i hi hir; omega
        · simp only [if_neg hlm]
          obtain ⟨ip, heq, h1, h2, h3, h4⟩ := ih middle r (by omega) (by omega)
            (fun i j hi hij hj => hmono i j (by omega) hij hj)
            (fun i hi hj => hnomatch i (by omega) hj)
          refine ⟨ip, heq, by omega, h2, ?_, h4⟩
          intro i hi hiip
          by_cases him : i < middle
          · have := hmono i middle hi (by omega) hmr
            omega
          · exact h3 i (by omega) hiip

/-!
Error domains and error objects (`RichErrors.c`).
-/

/-- `struct RERR_Domain`: a registered domain name with its code format.
The code format is a flag word (`RERR_CodeFormat`, nonnegative), kept as a
`Nat`. -/
structure DomainRec where
  name : List Nat
  codeFormat : Nat
deriving DecidableEq, Repr

instance : Inhabited DomainRec := ⟨⟨[], 0⟩⟩

/-- `RERR_DOMAIN_CRITICAL`. -/
def criticalName : List Nat := strBytes "RichErrorsCritical"

/-- `RERR_DOMAIN_RICHERRORS`. -/
def richErrorsName : List Nat := strBytes "RichErrors"

/-- Built-in `RichErrorsCriticalDomain` (code format `RERR_CodeFormat_I32`). -/
def RichErrorsCriticalDomain : DomainRec := ⟨criticalName, 1⟩

/-- Built-in `RichErrorsDomain` (code format `RERR_CodeFormat_I32`). -/
def RichErrorsDomain : DomainRec := ⟨richErrorsName, 1⟩

/-- Error codes of the `RichErrors` domain (`RichErrors.h`). -/
def RERR_ECODE_OUT_OF_MEMORY : Int := -1
def RERR_ECODE_NULL_ARGUMENT : Int := 101
def RERR_ECODE_DOMAIN_NAME_EMPTY : Int := 201
def RERR_ECODE_DOMAIN_NAME_TOO_LONG : Int := 202
def RERR_ECODE_DOMAIN_NAME_INVALID : Int := 203
def RERR_ECODE_DOMAIN_ALREADY_EXISTS : Int := 204
def RERR_ECODE_DOMAIN_NOT_REGISTERED : Int := 205
def RERR_ECODE_MAP_INVALID_CONFIG : Int := 301
def RERR_ECODE_MAP_INVALID_CODE : Int := 302
def RERR_ECODE_MAP_FAILURE : Int := 303
def RERR_ECODE_CODEFORMAT_INVALID : Int := 401

/-- `struct RERR_Error` together with the two pointer sentinels: `noError`
is the NULL pointer `RERR_NO_ERROR`, `oom` is the non-allocated
`RERR_OUT_OF_MEMORY` value `(RERR_ErrorPtr)-1`. A real error holds an
optional domain reference, a code (meaningful only with a domain), an
owned message (`none` = NULL pointer), an owned cause (`noError` = NULL),
an optional owned reference to an info map (kept abstract as a reference
id, since only the identity of the reference matters to destruction
accounting), and a reference count. -/
inductive ErrorVal where
  | noError
  | oom
  | real (domain : Option DomainRec) (code : Int) (message : Option String)
      (cause : ErrorVal) (info : Option Nat) (refCount : Nat)
deriving DecidableEq, Repr

instance : Inhabited ErrorVal := ⟨.noError⟩

/-- `Domain_Check`: validates a (non-NULL) domain name. Returns the error
code and message of the rich error the C code constructs, or `none` when
the name is acceptable. A byte is acceptable iff it is ASCII graphic or
space; the C comparison `domainName[i] < ' ' || domainName[i] > '~'` is on
(signed) `char`, so bytes `0x80..0xFF` (negative as `char`) are rejected
exactly like bytes below `0x20`. -/
def Domain_Check (name : List Nat) : Option (Int × String) :=
  if name = [] then some (RERR_ECODE_DOMAIN_NAME_EMPTY, "Empty error domain name")
  else if 63 < name.length then
    some (RERR_ECODE_DOMAIN_NAME_TOO_LONG,
      "Error domain name exceeding 63 characters: ...")
  else if name.any (fun b => b < 32 || 126 < b) then
    some (RERR_ECODE_DOMAIN_NAME_INVALID,
      "Error domain containing disallowed characters")
  else none

/-- `CodeFormat_Check`: the format word, with the `HexNoPad` bit masked
off, must be one of the ten allowed combinations. The bundled header
revision predates `RERR_CodeFormat_HexNoPad`; `RichErrors.c` uses it, and
it is the next flag bit after `Hex16 = 32`, i.e. `64`, so the mask below
clears bit 6 of a 32-bit flag word. -/
def RERR_CodeFormat_HexNoPad : Nat := 64

def CodeFormat_Check (format : Nat) : Option (Int × String) :=
  let f := format &&& (0xFFFFFFFF ^^^ RERR_CodeFormat_HexNoPad)
  if f = 1 ∨ f = 2 ∨ f = 4 ∨ f = 5 ∨ f = 6 ∨ f = 8 ∨ f = 16 ∨ f = 32 ∨
      f = 40 ∨ f = 48 then none
  else some (RERR_ECODE_CODEFORMAT_INVALID, "Invalid error code format")

/-- Comparison used for the registered-domain array (`Domain_Compare`):
compare an element's name against the searched name. -/
def Domain_Compare (d : DomainRec) (key : List Nat) : Int := strcmp d.name key

/-- `Domain_Find`: the two built-in domains are matched by `strcmp`
before the registered array is binary-searched. -/
def Domain_Find (reg : List DomainRec) (name : List Nat) : Option DomainRec :=
  if strcmp name criticalName = 0 then some RichErrorsCriticalDomain
  else if strcmp name richErrorsName = 0 then some RichErrorsDomain
  else
    match DynArray_BSearchExact reg name Domain_Compare with
    | some i => some (reg.getD i default)
    | none => none

/-- `Domain_Insert`: insert at the binary-search insertion point. -/
def Domain_Insert (reg : List DomainRec) (d : DomainRec) : List DomainRec :=
  DynArray_InsertElem reg (DynArray_BSearchInsertionPoint reg d.name Domain_Compare) d

/-- `RERR_Error_Create`: a fresh zeroed error with the message copied in
(`none` stays NULL), refcount 1. `allocOk = false` collapses the
`calloc`/`malloc` failure paths, which both return the out-of-memory
sentinel. -/
def Error_Create (message : Option String) (allocOk : Bool) : ErrorVal :=
  if allocOk then .real none 0 message .noError none 1 else .oom

/-- A rich error of the built-in `RichErrors` domain: this is what
`RERR_Error_CreateWithCode(RERR_DOMAIN_RICHERRORS, code, msg)` produces
(the built-in name always passes `Domain_Check` and is always found), so
the C code's self-calls for its own error reports unfold to this. -/
def mkRichErrorsError (code : Int) (msg : String) (allocOk : Bool) : ErrorVal :=
  if allocOk then .real (some RichErrorsDomain) code (some msg) .noError none 1
  else .oom

/-- `RERR_Domain_Register`. The 204 message in the C code has the domain
name appended; the suffix is elided here (no claim inspects message
text). On `allocOk = false` the `Domain_Create` failure path returns the
out-of-memory sentinel before the registry is consulted. -/
def Domain_Register (reg : List DomainRec) (domainName : Option (List Nat))
    (format : Nat) (allocOk : Bool) : ErrorVal × List DomainRec :=
  match domainName with
  | none => (mkRichErrorsError RERR_ECODE_NULL_ARGUMENT "Null error domain" allocOk, reg)
  | some name =>
    match Domain_Check name with
    | some (c, msg) => (mkRichErrorsError c msg allocOk, reg)
    | none =>
      match CodeFormat_Check format with
      | some (c, msg) => (mkRichErrorsError c msg allocOk, reg)
      | none =>
        if allocOk then
          match Domain_Find reg name with
          | some _ =>
            (mkRichErrorsError RERR_ECODE_DOMAIN_ALREADY_EXISTS
              "Cannot register already registered domain: ..." allocOk, reg)
          | none => (.noError, Domain_Insert reg ⟨name, format⟩)
        else (.oom, reg)

/-- `RERR_Error_CreateWithCode`. The self-calls that build the library's
own error reports (null argument, unregistered domain) go through the
built-in `RichErrors` domain and are unfolded to `mkRichErrorsError`. -/
def Error_CreateWithCode (reg : List DomainRec) (domainName : Option (List Nat))
    (code : Int) (message : Option String) (allocOk : Bool) : ErrorVal :=
  match domainName with
  | none =>
    if code = 0 then Error_Create message allocOk
    else mkRichErrorsError RERR_ECODE_NULL_ARGUMENT "Null error domain" allocOk
  | some name =>
    match Domain_Check name with
    | some (c, msg) => mkRichErrorsError c msg allocOk
    | none =>
      match Domain_Find reg name with
      | none =>
        mkRichErrorsError RERR_ECODE_DOMAIN_NOT_REGISTERED
          "Error domain not registered: ..." allocOk
      | some d =>
        match Error_Create message allocOk with
        | .real _ _ m c i rc => .real (some d) code m c i rc
        | e => e

/-- `RERR_Error_CreateWithInfo`. The passed-in info map is always
consumed; the error keeps an (immutable-copy) reference to it only when
the error really was created with the requested domain and code and the
map is non-empty. `info` is the abstract reference, `infoEmpty` is
`RERR_InfoMap_IsEmpty(info)` (which is also true for a NULL or
out-of-memory map). -/
def Error_CreateWithInfo (reg : List DomainRec) (domainName : Option (List Nat))
    (code : Int) (info : Option Nat) (infoEmpty : Bool)
    (message : Option String) (allocOk : Bool) : ErrorVal :=
  let ret := Error_CreateWithCode reg domainName code message allocOk
  if infoEmpty then ret
  else
    match domainName with
    | none => ret
    | some dn =>
      match ret with
      | .real (some d) c m cause _ rc =>
        if d.name = dn ∧ c = code then .real (some d) c m cause info rc else ret
      | _ => ret

/-- Resources released by destruction, in release order. -/
inductive Released where
  | message (s : String)
  | errObject
  | infoRef (id : Nat)
deriving DecidableEq, Repr

/-- `RERR_Error_Destroy`: sentinels are no-ops; a real error whose
refcount drops to zero frees its message (`free(NULL)` on an absent
message releases nothing), recursively destroys its cause, and frees the
object itself. Note that the C function does not touch `error->info`. -/
def Error_Destroy : ErrorVal → List Released
  | .noError => []
  | .oom => []
  | .real _ _ msg cause _ rc =>
    if rc - 1 = 0 then
      (match msg with | some s => [Released.message s] | none => [])
        ++ Error_Destroy cause ++ [Released.errObject]
    else []

/-- `RERR_Error_GetCause`: NULL for the sentinels, otherwise the stored
cause pointer itself (`some` marks that the pointer was read from a real
object; the value is the identical cause, not a copy). -/
def Error_GetCause : ErrorVal → Option ErrorVal
  | .real _ _ _ cause _ _ => some cause
  | _ => none

/-- Shared tail of the three wrap functions: either destroy the cause
(wrapper creation degraded to the out-of-memory sentinel) or store the
cause pointer into the freshly created wrapper (`ret->cause = cause`).
The second component lists what the call released. The `noError` branch
is unreachable (the constructors never return NULL) but kept to mirror
the unconditional C assignment. -/
def wrapAssemble (ret cause : ErrorVal) : ErrorVal × List Released :=
  match ret with
  | .oom => (.oom, Error_Destroy cause)
  | .real d c m _ i rc => (.real d c m cause i rc, [])
  | .noError => (.noError, [])

/-- `RERR_Error_Wrap`. -/
def Error_Wrap (cause : ErrorVal) (message : Option String) (allocOk : Bool) :
    ErrorVal × List Released :=
  wrapAssemble (Error_Create message allocOk) cause

/-- `RERR_Error_WrapWithCode`. -/
def Error_WrapWithCode (cause : ErrorVal) (reg : List DomainRec)
    (domainName : Option (List Nat)) (code : Int) (message : Option String)
    (allocOk : Bool) : ErrorVal × List Released :=
  wrapAssemble (Error_CreateWithCode reg domainName code message allocOk) cause

/-- `RERR_Error_WrapWithInfo`. -/
def Error_WrapWithInfo (cause : ErrorVal) (reg : List DomainRec)
    (domainName : Option (List Nat)) (code : Int) (info : Option Nat)
    (infoEmpty : Bool) (message : Option String) (allocOk : Bool) :
    ErrorVal × List Released :=
  wrapAssemble
    (Error_CreateWithInfo reg domainName code info infoEmpty message allocOk) cause

theorem Error_Create_ne_noError (message : Option String) (allocOk : Bool) :
    Error_Create message allocOk ≠ .noError := by
  cases allocOk <;> simp [Error_Create]

theorem mkRichErrorsError_ne_noError (c : Int) (m : String) (allocOk : Bool) :
    mkRichErrorsError c m allocOk ≠ .noError := by
  cases allocOk <;> simp [mkRichErrorsError]

theorem Error_CreateWithCode_ne_noError (reg : List DomainRec)
    (domainName : Option (List Nat)) (code : Int) (message : Option String)
    (allocOk : Bool) :
    Error_CreateWithCode reg domainName code message allocOk ≠ .noError := by
  unfold Error_CreateWithCode
  rcases domainName with _ | name
  · dsimp only
    split
    · exact Error_Create_ne_noError _ _
    · exact mkRichErrorsError_ne_noError _ _ _
  · dsimp only
    rcases hdc : Domain_Check name with _ | ⟨c, m⟩
    · rcases hdf : Domain_Find reg name with _ | d
      · simp only [hdf]
        exact mkRichErrorsError_ne_noError _ _ _
      · simp only [hdf]
        rcases hec : Error_Create message allocOk with _ | _ | ⟨d', c', m', cz, i, rc⟩
        · exact absurd hec (Error_Create_ne_noError _ _)
        · simp
        · simp
    · exact mkRichErrorsError_ne_noError _ _ _

theorem Error_CreateWithInfo_ne_noError (reg : List DomainRec)
    (domainName : Option (List Nat)) (code : Int) (info : Option Nat)
    (infoEmpty : Bool) (message : Option String) (allocOk : Bool) :
    Error_CreateWithInfo reg domainName code info infoEmpty message allocOk
      ≠ .noError := by
  unfold Error_CreateWithInfo
  have hbase := Error_CreateWithCode_ne_noError reg domainName code message allocOk
  dsimp only
  split
  · exact hbase
  · rcases domainName with _ | dn
    · exact hbase
    · dsimp only
      rcases hec : Error_CreateWithCode reg (some dn) code message allocOk
        with _ | _ | ⟨d', c', m', cz, i, rc⟩
      · exact absurd hec hbase
      · simp
      · rcases d' with _ | d
        · simp
        · dsimp only
          split
          · simp
          · simp

/-- Behavior of the shared wrap tail, given that creation never returns
the NULL no-error value. -/
theorem wrapAssemble_spec (ret cause : ErrorVal) (hne : ret ≠ .noError) :
    ((wrapAssemble ret cause).1 = .oom →
      (wrapAssemble ret cause).2 = Error_Destroy cause) ∧
    ((wrapAssemble ret cause).1 ≠ .oom →
      Error_GetCause (wrapAssemble ret cause).1 = some cause ∧
      (wrapAssemble ret cause).2 = []) := by
  rcases ret with _ | _ | ⟨d, c, m, cz, i, rc⟩
  · exact absurd rfl hne
  · exact ⟨fun _ => rfl, fun h => absurd rfl h⟩
  · exact ⟨fun h => by simp [wrapAssemble] at h, fun _ => ⟨rfl, rfl⟩⟩

/-- C4: at refcount 1, `RERR_Error_Destroy` is claimed to free the owned
message, recursively destroy the cause chain, and release the reference to
the attached info map. The code at `RichErrors.c:352-361` frees the
message and destroys the cause but never touches `error->info`: an error
created by `RERR_Error_CreateWithInfo` with an attached info map (reference
id 5 below) is destroyed without the info reference ever being released,
contradicting the claimed (and spec-stated) release of the info map. -/
theorem c4_destroy_never_releases_info :
    (Error_CreateWithInfo [] (some richErrorsName) 42 (some 5) false
        (some "op failed") true
      = .real (some RichErrorsDomain) 42 (some "op failed") .noError (some 5) 1) ∧
    (Error_Destroy
        (.real (some RichErrorsDomain) 42 (some "op failed") .noError (some 5) 1)
      = [.message "op failed", .errObject]) ∧
    Released.infoRef 5 ∉ Error_Destroy
        (.real (some RichErrorsDomain) 42 (some "op failed") .noError (some 5) 1) := by
  refine ⟨by decide, rfl, by simp [Error_Destroy]⟩

/-- C5: `wrap`, `wrapWithCode` and `wrapWithInfo` take ownership of the
cause on every path: when the wrapper degrades to the out-of-memory
sentinel, the call's released resources are exactly those of destroying
the cause; otherwise the returned wrapper stores the identical cause value
(no copy, refcount of the cause untouched) and nothing is released. -/
theorem c5_wrap_takes_ownership_of_cause (cause : ErrorVal)
    (message : Option String) (reg : List DomainRec)
    (domainName : Option (List Nat)) (code : Int) (info : Option Nat)
    (infoEmpty : Bool) (allocOk : Bool) :
    (((Error_Wrap cause message allocOk).1 = .oom →
        (Error_Wrap cause message allocOk).2 = Error_Destroy cause) ∧
      ((Error_Wrap cause message allocOk).1 ≠ .oom →
        Error_GetCause (Error_Wrap cause message allocOk).1 = some cause ∧
        (Error_Wrap cause message allocOk).2 = [])) ∧
    (((Error_WrapWithCode cause reg domainName code message allocOk).1 = .oom →
        (Error_WrapWithCode cause reg domainName code message allocOk).2
          = Error_Destroy cause) ∧
      ((Error_WrapWithCode cause reg domainName code message allocOk).1 ≠ .oom →
        Error_GetCause
            (Error_WrapWithCode cause reg domainName code message allocOk).1
          = some cause ∧
        (Error_WrapWithCode cause reg domainName code message allocOk).2 = [])) ∧
    (((Error_WrapWithInfo cause reg domainName code info infoEmpty message
          allocOk).1 = .oom →
        (Error_WrapWithInfo cause reg domainName code info infoEmpty message
          allocOk).2 = Error_Destroy cause) ∧
      ((Error_WrapWithInfo cause reg domainName code info infoEmpty message
          allocOk).1 ≠ .oom →
        Error_GetCause (Error_WrapWithInfo cause reg domainName code info
          infoEmpty message allocOk).1 = some cause ∧
        (Error_WrapWithInfo cause reg domainName code info infoEmpty message
          allocOk).2 = [])) :=
  ⟨wrapAssemble_spec _ cause (Error_Create_ne_noError message allocOk),
   wrapAssemble_spec _ cause
     (Error_CreateWithCode_ne_noError reg domainName code message allocOk),
   wrapAssemble_spec _ cause
     (Error_CreateWithInfo_ne_noError reg domainName code info infoEmpty
       message allocOk)⟩

/-- Witness for C5 at concrete inputs: a concrete wrap that succeeds
stores the identical cause, and a concrete wrap under allocation failure
destroys the cause (releasing its message and object). -/
theorem c5_wrap_takes_ownership_of_cause_witness :
    (Error_GetCause
        (Error_Wrap (.real none 7 (some "root") .noError none 1) (some "w") true).1
      = some (.real none 7 (some "root") .noError none 1)) ∧
    ((Error_Wrap (.real none 7 (some "root") .noError none 1) (some "w") false).2
      = [.message "root", .errObject]) := by
  have h := c5_wrap_takes_ownership_of_cause
    (.real none 7 (some "root") .noError none 1) (some "w") [] none 0 none true true
  have h2 := c5_wrap_takes_ownership_of_cause
    (.real none 7 (some "root") .noError none 1) (some "w") [] none 0 none true false
  refine ⟨(h.1.2 (by decide)).1, ?_⟩
  have := h2.1.1 (by decide)
  simpa [Error_Destroy] using this

/-!
`RERR_Error_FormatCode` (`RichErrors.c:445-547`).
-/

/-- The `uint32_t` reinterpretation of an `int32_t` code (`%u` / `%x`). -/
def u32ofInt (code : Int) : Nat := (code % ((2 : Int) ^ 32)).toNat

/-- The `int16_t` truncation of an `int32_t` code (`(int16_t)code`). -/
def i16ofInt (code : Int) : Int := (code + 2 ^ 15) % 2 ^ 16 - 2 ^ 15

/-- The `uint16_t` truncation of an `int32_t` code (`(uint16_t)code`). -/
def u16ofInt (code : Int) : Nat := (code % ((2 : Int) ^ 16)).toNat

/-- Lowercase hexadecimal digits of `n`, as printed by `%x`. -/
def hexDigits (n : Nat) : String := ⟨Nat.toDigits 16 n⟩

/-- Left-pad with zeros to width `w` (`%08x` / `%04x`). -/
def zeroPadTo (w : Nat) (s : String) : String :=
  ⟨List.replicate (w - s.length) '0'⟩ ++ s

/-- `strncpy(dest, s, destSize)` followed by `dest[destSize-1] = 0`: the
string is truncated to at most `destSize - 1` characters. -/
def strncpyTrunc (s : String) (destSize : Nat) : String :=
  if s.length + 1 ≤ destSize then s else s.take (destSize - 1)

/-- Body of `RERR_Error_FormatCode` once a domain (hence a format) is at
hand: build the decimal and hexadecimal renderings selected by the format
flags, then emit the primary (decimal if any, else hex), appending the
secondary hex in parentheses only when the whole combination fits;
if even the primary does not fit, fall back to (a truncation of) `"???"`. -/
def formatCodeWithDomain (fmt : Nat) (code : Int) (destSize : Nat) : String :=
  let dec := if fmt &&& 1 ≠ 0 then toString code else ""
  let dec := if fmt &&& 2 ≠ 0 then toString (u32ofInt code) else dec
  let hex := if fmt &&& 4 ≠ 0 then
      (if fmt &&& RERR_CodeFormat_HexNoPad ≠ 0 then "0x" ++ hexDigits (u32ofInt code)
       else "0x" ++ zeroPadTo 8 (hexDigits (u32ofInt code)))
    else ""
  let dec := if fmt &&& 8 ≠ 0 then toString (i16ofInt code) else dec
  let dec := if fmt &&& 16 ≠ 0 then toString (u16ofInt code) else dec
  let hex := if fmt &&& 32 ≠ 0 then
      (if fmt &&& RERR_CodeFormat_HexNoPad ≠ 0 then "0x" ++ hexDigits (u16ofInt code)
       else "0x" ++ zeroPadTo 4 (hexDigits (u16ofInt code)))
    else hex
  let primary := if dec.length > 0 then dec else hex
  let secondary : Option String :=
    if dec.length > 0 && hex.length > 0 then some hex else none
  if destSize < primary.length + 1 then strncpyTrunc "???" destSize
  else
    match secondary with
    | none => primary
    | some s =>
      if destSize < primary.length + 2 + s.length + 1 + 1 then primary
      else primary ++ " (" ++ s ++ ")"

/-- `RERR_Error_FormatCode`: `none` when nothing is written (NULL dest or
zero-size buffer); `RERR_NO_ERROR` and a domain-less error format as
`"(no code)"`; the out-of-memory sentinel formats as the critical domain
with code `RERR_ECODE_OUT_OF_MEMORY`. -/
def Error_FormatCode (error : ErrorVal) (destSize : Nat) : Option String :=
  if destSize = 0 then none
  else
    match error with
    | .noError => some (strncpyTrunc "(no code)" destSize)
    | .oom =>
      some (formatCodeWithDomain RichErrorsCriticalDomain.codeFormat
        RERR_ECODE_OUT_OF_MEMORY destSize)
    | .real dom code _ _ _ _ =>
      match dom with
      | none => some (strncpyTrunc "(no code)" destSize)
      | some d => some (formatCodeWithDomain d.codeFormat code destSize)

/-- Domain name of the FormatCode test scenario. -/
def diskName : List Nat := strBytes "disk"

/-- Registry with `"disk"` registered as `I32 | Hex32` (format `5`). -/
def diskReg : List DomainRec := (Domain_Register [] (some diskName) 5 true).2

/-- An error of the `"disk"` domain with the given code. -/
def diskErr (code : Int) : ErrorVal :=
  Error_CreateWithCode diskReg (some diskName) code (some "disk failure") true

theorem formatDisk_neg1 (destSize : Nat) :
    formatCodeWithDomain 5 (-1) destSize =
      if destSize < 3 then strncpyTrunc "???" destSize
      else if destSize < 16 then "-1" else "-1 (0xffffffff)" := rfl

theorem formatDisk_zero (destSize : Nat) :
    formatCodeWithDomain 5 0 destSize =
      if destSize < 2 then strncpyTrunc "???" destSize
      else if destSize < 15 then "0" else "0 (0x00000000)" := rfl

theorem formatDisk_min32 (destSize : Nat) :
    formatCodeWithDomain 5 (-2147483648) destSize =
      if destSize < 12 then strncpyTrunc "???" destSize
      else if destSize < 25 then "-2147483648"
      else "-2147483648 (0x80000000)" := rfl

/-- C9 counterexample: with the `"disk"` domain registered as
`I32 | Hex32`, the full formatted string for code `-1` is the 15-character
`"-1 (0xffffffff)"`. A 10-byte destination buffer is too small to hold it,
yet `RERR_Error_FormatCode` outputs `"-1"` — the decimal primary with the
hex secondary silently omitted — not the claimed `"???"` fallback. -/
theorem c9_small_buffer_not_questionmarks :
    Error_FormatCode (diskErr (-1)) 10 = some "-1" ∧
    some "-1" ≠ some "???" := by
  exact ⟨by decide, by decide⟩

/-- C9 amended: with domain `"disk"` registered as `I32 | Hex32`, code
`-1` formats as `"-1 (0xffffffff)"` and code `0` as `"0 (0x00000000)"`
once the buffer holds the full string; an error carrying no code formats
as `"(no code)"`; and the `"???"` fallback occurs exactly when the buffer
cannot hold even the decimal primary (shown for code `-2147483648`, whose
primary needs 12 bytes) — when the primary fits but the parenthesized hex
secondary does not, the secondary is omitted and the primary alone is
written. -/
theorem c9_format_code_amended (destSize : Nat) :
    (Domain_Register [] (some diskName) 5 true).1 = .noError ∧
    (16 ≤ destSize →
      Error_FormatCode (diskErr (-1)) destSize = some "-1 (0xffffffff)") ∧
    (15 ≤ destSize →
      Error_FormatCode (diskErr 0) destSize = some "0 (0x00000000)") ∧
    (10 ≤ destSize →
      Error_FormatCode (Error_Create (some "m") true) destSize
        = some "(no code)") ∧
    (4 ≤ destSize → destSize < 12 →
      Error_FormatCode (diskErr (-2147483648)) destSize = some "???") ∧
    (3 ≤ destSize → destSize < 16 →
      Error_FormatCode (diskErr (-1)) destSize = some "-1") := by
  have hn1 : ∀ ds, Error_FormatCode (diskErr (-1)) ds =
      if ds = 0 then none else some (formatCodeWithDomain 5 (-1) ds) :=
    fun ds => rfl
  have hz : ∀ ds, Error_FormatCode (diskErr 0) ds =
      if ds = 0 then none else some (formatCodeWithDomain 5 0 ds) :=
    fun ds => rfl
  have hm : ∀ ds, Error_FormatCode (diskErr (-2147483648)) ds =
      if ds = 0 then none else some (formatCodeWithDomain 5 (-2147483648) ds) :=
    fun ds => rfl
  have hnc : ∀ ds, Error_FormatCode (Error_Create (some "m") true) ds =
      if ds = 0 then none else some (strncpyTrunc "(no code)" ds) :=
    fun ds => rfl
  refine ⟨by decide, ?_, ?_, ?_, ?_, ?_⟩
  · intro h
    rw [hn1, formatDisk_neg1]
    rw [if_neg (by omega), if_neg (by omega), if_neg (by omega)]
  · intro h
    rw [hz, formatDisk_zero]
    rw [if_neg (by omega), if_neg (by omega), if_neg (by omega)]
  · intro h
    rw [hnc, if_neg (by omega)]
    have hlen : ("(no code)" : String).length = 9 := rfl
    rw [strncpyTrunc, if_pos (by omega)]
  · intro h4 h12
    rw [hm, formatDisk_min32]
    rw [if_neg (by omega), if_pos (by omega)]
    have hlen : ("???" : String).length = 3 := rfl
    rw [strncpyTrunc, if_pos (by omega)]
  · intro h3 h16
    rw [hn1, formatDisk_neg1]
    rw [if_neg (by omega), if_neg (by omega), if_pos (by omega)]

/-- Witness for C9 at a concrete buffer size. -/
theorem c9_format_code_amended_witness :
    Error_FormatCode (diskErr (-1)) 64 = some "-1 (0xffffffff)" ∧
    Error_FormatCode (diskErr (-2147483648)) 5 = some "???" :=
  ⟨(c9_format_code_amended 64).2.1 (by omega),
   (c9_format_code_amended 5).2.2.2.2.1 (by omega) (by omega)⟩

/-!
Domain registry invariant (`domains` is "Always sorted" per
`RichErrors.c`) and the search/insert facts needed about it.
-/

/-- The registry invariant: strictly ascending by `strcmp` on names. -/
def regSorted (reg : List DomainRec) : Prop :=
  List.Pairwise (fun a b => strcmp a.name b.name < 0) reg

theorem regSorted_index {reg : List DomainRec} (hs : regSorted reg)
    {i j : Nat} (hij : i < j) (hj : j < reg.length) :
    strcmp (reg.getD i default).name (reg.getD j default).name < 0 := by
  have hi : i < reg.length := lt_trans hij hj
  have := (List.pairwise_iff_getElem.mp hs) i j hi hj hij
  rwa [List.getD_eq_getElem reg default hi, List.getD_eq_getElem reg default hj]

theorem regSorted_mono (reg : List DomainRec) (key : List Nat)
    (hs : regSorted reg) :
    ∀ i j, i ≤ j → j < reg.length →
      strcmp (reg.getD i default).name key ≤ strcmp (reg.getD j default).name key := by
  intro i j hij hj
  rcases Nat.eq_or_lt_of_le hij with he | hlt
  · rw [he]
  · exact strcmp_mono_left _ _ _ (regSorted_index hs hlt hj)

/-- On a sorted registry the exact binary search finds any present name. -/
theorem regFind_complete (reg : List DomainRec) (key : List Nat)
    (hs : regSorted reg) (k : Nat) (hk : k < reg.length)
    (hmatch : strcmp (reg.getD k default).name key = 0) :
    (DynArray_BSearchExact reg key Domain_Compare).isSome := by
  unfold DynArray_BSearchExact
  exact bsearchLoop_exact_complete _ _ (reg.length + 1) 0 reg.length k
    (by omega) (by omega) hk hmatch
    (fun i j _ hij hj => regSorted_mono reg key hs i j hij hj)

/-- Contrapositive: a failed exact search on a sorted registry means no
element's name compares equal to the key. -/
theorem regFind_none (reg : List DomainRec) (key : List Nat)
    (hs : regSorted reg)
    (hnone : DynArray_BSearchExact reg key Domain_Compare = none) :
    ∀ k, k < reg.length → strcmp (reg.getD k default).name key ≠ 0 := by
  intro k hk heq
  have := regFind_complete reg key hs k hk heq
  rw [hnone] at this
  simp at this

/-- Sortedness of a registry from its index-level description. -/
theorem regSorted_of_index (l : List DomainRec)
    (h : ∀ i j, i < j → j < l.length →
      strcmp (l.getD i default).name (l.getD j default).name < 0) :
    regSorted l := by
  rw [regSorted, List.pairwise_iff_getElem]
  intro i j hi hj hij
  have := h i j hij hj
  rwa [List.getD_eq_getElem l default (by omega),
    List.getD_eq_getElem l default hj] at this

/-- Element-level description of insertion at position `ip`. -/
theorem insert_getD (reg : List DomainRec) (d : DomainRec) (ip : Nat)
    (hipr : ip ≤ reg.length) :
    (reg.take ip ++ [d] ++ reg.drop ip).length = reg.length + 1 ∧
    (∀ i, i < ip →
      (reg.take ip ++ [d] ++ reg.drop ip).getD i default = reg.getD i default) ∧
    (reg.take ip ++ [d] ++ reg.drop ip).getD ip default = d ∧
    (∀ i, ip < i → i < reg.length + 1 →
      (reg.take ip ++ [d] ++ reg.drop ip).getD i default
        = reg.getD (i - 1) default) := by
  have htklen : (reg.take ip).length = ip := by
    rw [List.length_take]
    omega
  have htk1 : (reg.take ip ++ [d]).length = ip + 1 := by
    rw [List.length_append, htklen]
    rfl
  have hlen : (reg.take ip ++ [d] ++ reg.drop ip).length = reg.length + 1 := by
    rw [List.length_append, htk1, List.length_drop]
    omega
  refine ⟨hlen, ?_, ?_, ?_⟩
  · intro i hi
    have hiL : i < (reg.take ip ++ [d] ++ reg.drop ip).length := by omega
    rw [List.getD_eq_getElem _ default hiL,
      List.getElem_append_left (by omega : i < (reg.take ip ++ [d]).length),
      List.getElem_append_left (by omega : i < (reg.take ip).length),
      List.getElem_take, List.getD_eq_getElem reg default (by omega)]
  · have hipL : ip < (reg.take ip ++ [d] ++ reg.drop ip).length := by omega
    rw [List.getD_eq_getElem _ default hipL,
      List.getElem_append_left (by omega : ip < (reg.take ip ++ [d]).length),
      List.getElem_append_right (by omega : (reg.take ip).length ≤ ip)]
    simp [htklen]
  · intro i hip hi
    have hiL : i < (reg.take ip ++ [d] ++ reg.drop ip).length := by omega
    have him : i - 1 < reg.length := by omega
    rw [List.getD_eq_getElem _ default hiL,
      List.getElem_append_right (by omega : (reg.take ip ++ [d]).length ≤ i),
      List.getElem_drop, List.getD_eq_getElem reg default him]
    congr 1
    omega

/-- Inserting a not-present name at the binary-search insertion point
keeps the registry sorted and places the new domain at the returned
index. -/
theorem regInsert_of_not_found (reg : List DomainRec) (d : DomainRec)
    (hs : regSorted reg)
    (hnomatch : ∀ k, k < reg.length →
      strcmp (reg.getD k default).name d.name ≠ 0) :
    regSorted (Domain_Insert reg d) ∧
    ∃ ip, ip ≤ reg.length ∧ (Domain_Insert reg d).length = reg.length + 1 ∧
      (Domain_Insert reg d).getD ip default = d := by
  obtain ⟨ip, hloop, hip0, hipr, hbefore, hafter⟩ :=
    bsearchLoop_insertion_point (fun a => Domain_Compare a d.name)
      (fun i => reg.getD i default) (reg.length + 1) 0 reg.length
      (by omega) (by omega)
      (fun i j _ hij hj => regSorted_mono reg d.name hs i j hij hj)
      (fun i _ hi => hnomatch i hi)
  simp only [Domain_Compare] at hbefore hafter
  have hippt : DynArray_BSearchInsertionPoint reg d.name Domain_Compare = ip := by
    unfold DynArray_BSearchInsertionPoint
    rw [hloop]
    rfl
  have hins : Domain_Insert reg d = reg.take ip ++ [d] ++ reg.drop ip := by
    unfold Domain_Insert DynArray_InsertElem
    rw [hippt]
  obtain ⟨hlen, hlow, hmid, hhigh⟩ := insert_getD reg d ip hipr
  refine ⟨?_, ip, hipr, by rw [hins, hlen], by rw [hins]; exact hmid⟩
  rw [hins]
  apply regSorted_of_index
  intro i j hij hj
  rw [hlen] at hj
  by_cases hi1 : i < ip
  · rw [hlow i hi1]
    by_cases hj1 : j < ip
    · rw [hlow j hj1]
      exact regSorted_index hs hij (by omega)
    · by_cases hj2 : j = ip
      · subst hj2
        rw [hmid]
        exact hbefore i (by omega) hi1
      · rw [hhigh j (by omega) hj]
        exact regSorted_index hs (by omega) (by omega)
  · by_cases hi2 : i = ip
    · subst hi2
      have hj2 : i ≠ j := by omega
      rw [hmid, hhigh j (by omega) hj]
      have hjlt : j - 1 < reg.length := by omega
      have hpos := hafter (j - 1) (by omega) hjlt
      have hswap := strcmp_swap (reg.getD (j - 1) default).name d.name
      rcases strcmp_range d.name (reg.getD (j - 1) default).name
        with h | h | h <;> omega
    · rw [hhigh i (by omega) (by omega), hhigh j (by omega) hj]
      exact regSorted_index hs (by omega) (by omega)

/-- Domain name and code of a rich error (used to state which error kind a
call reports). -/
def errorDomainCode : ErrorVal → Option (List Nat × Int)
  | .real (some d) c _ _ _ _ => some (d.name, c)
  | _ => none

/-- Unfolding of `Domain_Register` on a non-NULL name. -/
theorem Domain_Register_some (reg : List DomainRec) (name : List Nat)
    (fmt : Nat) (allocOk : Bool) :
    Domain_Register reg (some name) fmt allocOk =
      match Domain_Check name with
      | some (c, msg) => (mkRichErrorsError c msg allocOk, reg)
      | none =>
        match CodeFormat_Check fmt with
        | some (c, msg) => (mkRichErrorsError c msg allocOk, reg)
        | none =>
          if allocOk then
            match Domain_Find reg name with
            | some _ =>
              (mkRichErrorsError RERR_ECODE_DOMAIN_ALREADY_EXISTS
                "Cannot register already registered domain: ..." allocOk, reg)
            | none => (.noError, Domain_Insert reg ⟨name, fmt⟩)
          else (.oom, reg) := rfl

theorem Domain_Register_checkFail (reg : List DomainRec) (name : List Nat)
    (fmt : Nat) (allocOk : Bool) (c : Int) (m : String)
    (h : Domain_Check name = some (c, m)) :
    Domain_Register reg (some name) fmt allocOk
      = (mkRichErrorsError c m allocOk, reg) := by
  rw [Domain_Register_some, h]

theorem Domain_Register_found (reg : List DomainRec) (name : List Nat)
    (fmt : Nat) (dd : DomainRec)
    (h1 : Domain_Check name = none) (h2 : CodeFormat_Check fmt = none)
    (h3 : Domain_Find reg name = some dd) :
    Domain_Register reg (some name) fmt true
      = (mkRichErrorsError RERR_ECODE_DOMAIN_ALREADY_EXISTS
          "Cannot register already registered domain: ..." true, reg) := by
  rw [Domain_Register_some, h1, h2, h3]
  rfl

theorem Domain_Register_success (reg : List DomainRec) (name : List Nat)
    (fmt : Nat)
    (h1 : Domain_Check name = none) (h2 : CodeFormat_Check fmt = none)
    (h3 : Domain_Find reg name = none) :
    Domain_Register reg (some name) fmt true
      = (.noError, Domain_Insert reg ⟨name, fmt⟩) := by
  rw [Domain_Register_some, h1, h2, h3]
  rfl

/-- C8: domain registration rejects the empty name with DomainNameEmpty,
names longer than 63 bytes with DomainNameTooLong, and names containing a
byte outside the ASCII graphic-or-space range 0x20..0x7E with
DomainNameInvalidChars; registering a name a second time (with any valid
code format) fails with DomainAlreadyExists; and registering either
built-in domain name fails with DomainAlreadyExists with no prior
registration at all. All these errors are reported in the built-in
`RichErrors` domain. `reg` ranges over sorted registries, the invariant
the C code maintains (`domains` is "Always sorted"). -/
theorem c8_domain_registration (reg : List DomainRec) (hs : regSorted reg)
    (name : List Nat) (fmt fmt2 : Nat)
    (hfmt : CodeFormat_Check fmt = none)
    (hfmt2 : CodeFormat_Check fmt2 = none) :
    (errorDomainCode (Domain_Register reg (some []) fmt true).1
      = some (richErrorsName, RERR_ECODE_DOMAIN_NAME_EMPTY)) ∧
    (∀ nm : List Nat, 63 < nm.length →
      errorDomainCode (Domain_Register reg (some nm) fmt true).1
        = some (richErrorsName, RERR_ECODE_DOMAIN_NAME_TOO_LONG)) ∧
    (∀ nm : List Nat, nm ≠ [] → nm.length ≤ 63 →
      (∃ b ∈ nm, b < 32 ∨ 126 < b) →
      errorDomainCode (Domain_Register reg (some nm) fmt true).1
        = some (richErrorsName, RERR_ECODE_DOMAIN_NAME_INVALID)) ∧
    ((Domain_Register reg (some name) fmt true).1 = .noError →
      errorDomainCode (Domain_Register
          (Domain_Register reg (some name) fmt true).2 (some name) fmt2 true).1
        = some (richErrorsName, RERR_ECODE_DOMAIN_ALREADY_EXISTS)) ∧
    (errorDomainCode (Domain_Register reg (some criticalName) fmt true).1
      = some (richErrorsName, RERR_ECODE_DOMAIN_ALREADY_EXISTS)) ∧
    (errorDomainCode (Domain_Register reg (some richErrorsName) fmt true).1
      = some (richErrorsName, RERR_ECODE_DOMAIN_ALREADY_EXISTS)) := by
  refine ⟨rfl, ?_, ?_, ?_, ?_, ?_⟩
  · -- name too long
    intro nm hnm
    have hne : nm ≠ [] := by
      intro h
      subst h
      simp at hnm
    have hdc : Domain_Check nm = some (RERR_ECODE_DOMAIN_NAME_TOO_LONG,
        "Error domain name exceeding 63 characters: ...") := by
      unfold Domain_Check
      rw [if_neg hne, if_pos hnm]
    rw [Domain_Register_checkFail reg nm fmt true _ _ hdc]
    rfl
  · -- invalid characters
    intro nm hne hlen hbad
    have hany : nm.any (fun b => b < 32 || 126 < b) = true := by
      rw [List.any_eq_true]
      obtain ⟨b, hb, hcond⟩ := hbad
      refine ⟨b, hb, ?_⟩
      simp only [Bool.or_eq_true, decide_eq_true_eq]
      exact hcond
    have hdc : Domain_Check nm = some (RERR_ECODE_DOMAIN_NAME_INVALID,
        "Error domain containing disallowed characters") := by
      unfold Domain_Check
      rw [if_neg hne, if_neg (by omega), if_pos hany]
    rw [Domain_Register_checkFail reg nm fmt true _ _ hdc]
    rfl
  · -- duplicate registration
    intro hfirst
    rcases hdc : Domain_Check name with _ | ⟨c, m⟩
    · rcases hdf : Domain_Find reg name with _ | dfound
      · -- the interesting case: the first registration inserted the name
        have hsnd : (Domain_Register reg (some name) fmt true).2
            = Domain_Insert reg ⟨name, fmt⟩ := by
          rw [Domain_Register_success reg name fmt hdc hfmt hdf]
        have hcrit : strcmp name criticalName ≠ 0 := by
          intro h
          unfold Domain_Find at hdf
          rw [if_pos h] at hdf
          cases hdf
        have hre : strcmp name richErrorsName ≠ 0 := by
          intro h
          unfold Domain_Find at hdf
          rw [if_neg hcrit, if_pos h] at hdf
          cases hdf
        have hbs : DynArray_BSearchExact reg name Domain_Compare = none := by
          unfold Domain_Find at hdf
          rw [if_neg hcrit, if_neg hre] at hdf
          rcases h : DynArray_BSearchExact reg name Domain_Compare with _ | i
          · rfl
          · rw [h] at hdf
            cases hdf
        have hnomatch := regFind_none reg name hs hbs
        obtain ⟨hs', ip, hiple, hlen', hgetip⟩ :=
          regInsert_of_not_found reg ⟨name, fmt⟩ hs hnomatch
        rw [hsnd]
        set newReg := Domain_Insert reg ⟨name, fmt⟩ with hnr
        have hip_lt : ip < newReg.length := by
          rw [hlen']
          omega
        have hmatch : strcmp (newReg.getD ip default).name name = 0 := by
          rw [hgetip]
          exact strcmp_self name
        have hsome := regFind_complete newReg name hs' ip hip_lt hmatch
        have hfind' : ∃ dd, Domain_Find newReg name = some dd := by
          unfold Domain_Find
          rw [if_neg hcrit, if_neg hre]
          rcases h : DynArray_BSearchExact newReg name Domain_Compare with _ | i
          · rw [h] at hsome
            simp at hsome
          · exact ⟨_, rfl⟩
        obtain ⟨dd, hdd⟩ := hfind'
        rw [Domain_Register_found newReg name fmt2 dd hdc hfmt2 hdd]
        rfl
      · -- first registration reported an existing domain: contradiction
        exfalso
        rw [Domain_Register_found reg name fmt dfound hdc hfmt hdf] at hfirst
        simp [mkRichErrorsError] at hfirst
    · -- first registration rejected the name: contradiction
      exfalso
      rw [Domain_Register_checkFail reg name fmt true _ _ hdc] at hfirst
      simp [mkRichErrorsError] at hfirst
  · -- built-in critical domain name
    have hdcc : Domain_Check criticalName = none := by decide
    have hfindc : Domain_Find reg criticalName
        = some RichErrorsCriticalDomain := by
      unfold Domain_Find
      rw [if_pos (strcmp_self criticalName)]
    rw [Domain_Register_found reg criticalName fmt _ hdcc hfmt hfindc]
    rfl
  · -- built-in RichErrors domain name
    have hdcr : Domain_Check richErrorsName = none := by decide
    have hcritne : strcmp richErrorsName criticalName ≠ 0 := by decide
    have hfindr : Domain_Find reg richErrorsName = some RichErrorsDomain := by
      unfold Domain_Find
      rw [if_neg hcritne, if_pos (strcmp_self richErrorsName)]
    rw [Domain_Register_found reg richErrorsName fmt _ hdcr hfmt hfindr]
    rfl

/-- Witness for C8: registering `"net"` into the empty registry succeeds;
registering it again reports DomainAlreadyExists; the empty name reports
DomainNameEmpty. -/
theorem c8_domain_registration_witness :
    errorDomainCode (Domain_Register
        (Domain_Register [] (some (strBytes "net")) 1 true).2
        (some (strBytes "net")) 1 true).1
      = some (richErrorsName, RERR_ECODE_DOMAIN_ALREADY_EXISTS) ∧
    errorDomainCode (Domain_Register [] (some []) 1 true).1
      = some (richErrorsName, RERR_ECODE_DOMAIN_NAME_EMPTY) := by
  have h := c8_domain_registration [] List.Pairwise.nil (strBytes "net") 1 1
    (by decide) (by decide)
  exact ⟨h.2.2.2.1 (by decide), h.1⟩

/-!
Thread-scoped integer-code registry (`Err2Code.c`). Error objects held by
the map are identified by abstract ids (pointer identity is what the
retrieval contract is about). Capacity management
(`ErrorMap_EnsureCapacity` / `ErrorMap_ShrinkCapacity`) only changes the
allocation size, never the stored entries, and is elided; allocation is
assumed to succeed where it matters to the claims under study.
-/

/-- `struct MappedError`. -/
structure MappedError where
  thread : Nat
  code : Int
  error : Nat
deriving DecidableEq, Repr

instance : Inhabited MappedError := ⟨⟨0, 0, 0⟩⟩

/-- `MappedError_Compare`: by thread id, then by code. -/
def MappedError_Compare (lhs rhs : MappedError) : Int :=
  if lhs.thread < rhs.thread then -1
  else if rhs.thread < lhs.thread then 1
  else if lhs.code < rhs.code then -1
  else if rhs.code < lhs.code then 1
  else 0

/-- `struct RERR_ErrorMap` (the mutex is elided; `mapCapacity` is elided
as capacity only). `mappings` is kept sorted by `MappedError_Compare`. -/
structure ErrorMap where
  minCode : Int
  maxCode : Int
  noErrorCode : Int
  oomCode : Int
  failCode : Int
  nextCode : Int
  mappings : List MappedError
deriving DecidableEq, Repr

/-- `ErrorMap_Find`: binary search for the calling thread's entry with the
given code (the key's `error` field is NULL, i.e. 0, and is not compared).
Returns the index of the found entry. -/
def ErrorMap_Find (m : ErrorMap) (thread : Nat) (code : Int) : Option Nat :=
  DynArray_BSearchExact m.mappings (⟨thread, code, 0⟩ : MappedError)
    (fun e k => MappedError_Compare e k)

/-- `ErrorMap_Erase`: the C function receives the found `item` but passes
`map->mappings` — the array base pointer, i.e. position 0 — to
`DynArray_EraseElem`, so the first entry of the whole array is erased
regardless of `item`; the `item` parameter is unused, exactly as in the
source. (`ErrorMap_ShrinkCapacity` afterwards only adjusts capacity.) -/
def ErrorMap_Erase (m : ErrorMap) (item : Nat) : ErrorMap :=
  { m with mappings := DynArray_EraseElem m.mappings 0 }

/-- `RERR_ErrorMapConfig` (`Err2Code.h`). -/
structure RERR_ErrorMapConfig where
  minMappedCode : Int
  maxMappedCode : Int
  noErrorCode : Int
  outOfMemoryCode : Int
  mapFailureCode : Int
deriving DecidableEq, Repr

def INT32_MAX : Int := 2147483647
def INT32_MIN : Int := -2147483648

/-- `IncrementCode`: advance within the mapped range, wrapping from
`maxCode` to `minCode` and across the `int32_t` boundary. -/
def IncrementCode (code minCode maxCode : Int) : Int :=
  if code = maxCode then minCode
  else if code = INT32_MAX then INT32_MIN else code + 1

/-- `CodeIsInRange`: member of `[minCode, maxCode]`, where a wrapped range
(`minCode > maxCode`) means `[minCode, INT32_MAX] ∪ [INT32_MIN, maxCode]`. -/
def CodeIsInRange (code minCode maxCode : Int) : Bool :=
  let continuousRange := decide (minCode ≤ maxCode)
  (continuousRange && decide (minCode ≤ code) && decide (code ≤ maxCode)) ||
    (!continuousRange && (decide (minCode ≤ code) || decide (code ≤ maxCode)))

theorem codeIsInRange_iff (code minC maxC : Int) :
    CodeIsInRange code minC maxC = true ↔
      ((minC ≤ maxC ∧ minC ≤ code ∧ code ≤ maxC) ∨
       (maxC < minC ∧ (minC ≤ code ∨ code ≤ maxC))) := by
  unfold CodeIsInRange
  simp only [Bool.or_eq_true, Bool.and_eq_true, Bool.not_eq_true',
    decide_eq_true_eq, decide_eq_false_iff_not]
  omega

/-- `CheckConfig` on a non-NULL config (the NULL-config branch reports
NullArgument and is outside the "every configuration record" claim). -/
def CheckConfig (config : RERR_ErrorMapConfig) : Option (Int × String) :=
  if CodeIsInRange config.noErrorCode config.minMappedCode
      config.maxMappedCode then
    some (RERR_ECODE_MAP_INVALID_CONFIG, "Mapped code range contains no-error code")
  else if CodeIsInRange config.outOfMemoryCode config.minMappedCode
      config.maxMappedCode then
    some (RERR_ECODE_MAP_INVALID_CONFIG,
      "Mapped code range contains out-of-memory code")
  else if CodeIsInRange config.mapFailureCode config.minMappedCode
      config.maxMappedCode then
    some (RERR_ECODE_MAP_INVALID_CONFIG,
      "Mapped code range contains map-failure code")
  else if config.outOfMemoryCode = config.noErrorCode then
    some (RERR_ECODE_MAP_INVALID_CONFIG,
      "Out-of-memory code cannot equal no-error code")
  else if config.mapFailureCode = config.noErrorCode then
    some (RERR_ECODE_MAP_INVALID_CONFIG,
      "Map-failure code cannot equal no-error code")
  else none

/-- `RERR_ErrorMap_Create`: on a valid config, a fresh empty map with
`nextCode = minCode`. -/
def ErrorMap_Create (config : RERR_ErrorMapConfig) (allocOk : Bool) :
    ErrorVal × Option ErrorMap :=
  match CheckConfig config with
  | some (c, m) => (mkRichErrorsError c m allocOk, none)
  | none =>
    if allocOk then
      (.noError, some
        { minCode := config.minMappedCode
          maxCode := config.maxMappedCode
          noErrorCode := config.noErrorCode
          oomCode := config.outOfMemoryCode
          failCode := config.mapFailureCode
          nextCode := config.minMappedCode
          mappings := [] })
    else (.oom, none)

/-- What `RERR_ErrorMap_RetrieveThreadLocal` hands back: the no-error
value, a fresh out-of-memory sentinel, a freshly created rich error of
the given domain and code, or the stored error object itself (by id). -/
inductive RetrievedError where
  | noError
  | oomSentinel
  | freshError (domain : List Nat) (code : Int)
  | stored (errId : Nat)
deriving DecidableEq, Repr

/-- `RERR_ErrorMap_RetrieveThreadLocal` for the calling thread `thread`. -/
def ErrorMap_RetrieveThreadLocal (m : ErrorMap) (thread : Nat)
    (mappedCode : Int) : RetrievedError × ErrorMap :=
  if mappedCode = m.noErrorCode then (.noError, m)
  else if mappedCode = m.oomCode then (.oomSentinel, m)
  else if mappedCode = m.failCode then
    (.freshError richErrorsName RERR_ECODE_MAP_FAILURE, m)
  else
    match ErrorMap_Find m thread mappedCode with
    | some idx =>
      (.stored ((m.mappings.getD idx default).error), ErrorMap_Erase m idx)
    | none => (.freshError richErrorsName RERR_ECODE_MAP_INVALID_CODE, m)

/-- `RERR_ErrorMap_IsRegisteredThreadLocal` for the calling thread. -/
def ErrorMap_IsRegisteredThreadLocal (m : ErrorMap) (thread : Nat)
    (code : Int) : Bool :=
  if code = m.noErrorCode ∨ code = m.oomCode ∨ code = m.failCode then true
  else (ErrorMap_Find m thread code).isSome

/-- The compaction loop of `RERR_ErrorMap_ClearThreadLocal`, transcribed
literally: `i` scans the entries, entries of the calling thread are
destroyed (their error ids are appended to `destroyed`), other entries
are copied down to the write cursor `j` when `j < i`. Note the C loop
never increments `j`. The loop runs `fuel` iterations at most; callers
pass the entry count, which `List.set` preserves. -/
def clearLoop (thisThread : Nat) :
    Nat → List MappedError → Nat → Nat → List Nat →
      List MappedError × Nat × List Nat
  | 0, arr, _, j, destroyed => (arr, j, destroyed)
  | fuel + 1, arr, i, j, destroyed =>
    if i < arr.length then
      let e := arr.getD i default
      if e.thread = thisThread then
        clearLoop thisThread fuel arr (i + 1) j (destroyed ++ [e.error])
      else if j < i then
        clearLoop thisThread fuel (arr.set j e) (i + 1) j destroyed
      else clearLoop thisThread fuel arr (i + 1) j destroyed
    else (arr, j, destroyed)

/-- `RERR_ErrorMap_ClearThreadLocal` for the calling thread: after the
loop, `mapSize` becomes `j - begin`, i.e. the entries are truncated to the
first `j`. Returns the new map and the ids of the destroyed errors. -/
def ErrorMap_ClearThreadLocal (m : ErrorMap) (thisThread : Nat) :
    ErrorMap × List Nat :=
  let r := clearLoop thisThread m.mappings.length m.mappings 0 0 []
  ({ m with mappings := r.1.take r.2.1 }, r.2.2)

/-- C1: evaluation at the failing input. With entries `(thread 7, code 1,
error 10)` and `(thread 7, code 2, error 20)` (sorted, as the registry
keeps them), retrieving code 2 on thread 7 returns the stored error 20 —
but because `ErrorMap_Erase` erases position 0 instead of the found item,
the `(7, 1)` entry is removed while the just-retrieved `(7, 2)` entry
stays in the table: a second retrieve of code 2 hands out the same stored
object again instead of a fresh MapInvalidCode error, and code 1 is no
longer registered. This contradicts the claim (and the function's own
documentation, "The error is unregistered from the map"). -/
theorem c1_retrieve_erases_wrong_entry :
    (ErrorMap_RetrieveThreadLocal ⟨1, 100, 0, -1, -2, 3,
        [⟨7, 1, 10⟩, ⟨7, 2, 20⟩]⟩ 7 2).1 = .stored 20 ∧
    (ErrorMap_RetrieveThreadLocal ⟨1, 100, 0, -1, -2, 3,
        [⟨7, 1, 10⟩, ⟨7, 2, 20⟩]⟩ 7 2).2.mappings = [⟨7, 2, 20⟩] ∧
    (ErrorMap_RetrieveThreadLocal (ErrorMap_RetrieveThreadLocal
        ⟨1, 100, 0, -1, -2, 3, [⟨7, 1, 10⟩, ⟨7, 2, 20⟩]⟩ 7 2).2 7 2).1
      = .stored 20 ∧
    ErrorMap_IsRegisteredThreadLocal (ErrorMap_RetrieveThreadLocal
        ⟨1, 100, 0, -1, -2, 3, [⟨7, 1, 10⟩, ⟨7, 2, 20⟩]⟩ 7 2).2 7 1
      = false := by
  decide

/-- C2: evaluation at the failing input. With one entry of thread 0 and
one of thread 1, clearing thread 0 destroys only thread 0's error (id 10)
— but because the write cursor `j` is never incremented, `mapSize` becomes
0: thread 1's entry is removed from the table as well, without its error
(id 11) being destroyed, so thread 1's code 1 is no longer registered.
This contradicts the claim (and the header, which says the function
clears "the error code registrations for the current thread"). -/
theorem c2_clear_drops_other_threads_entries :
    (ErrorMap_ClearThreadLocal ⟨1, 100, 0, -1, -2, 3,
        [⟨0, 1, 10⟩, ⟨1, 1, 11⟩]⟩ 0).2 = [10] ∧
    (ErrorMap_ClearThreadLocal ⟨1, 100, 0, -1, -2, 3,
        [⟨0, 1, 10⟩, ⟨1, 1, 11⟩]⟩ 0).1.mappings = [] ∧
    ErrorMap_IsRegisteredThreadLocal
        (ErrorMap_ClearThreadLocal ⟨1, 100, 0, -1, -2, 3,
          [⟨0, 1, 10⟩, ⟨1, 1, 11⟩]⟩ 0).1 1 1 = false := by
  decide

/-- C3 counterexample: the configuration `{min 1, max 10, noError 0,
outOfMemory -1, mapFailure -1}` has equal out-of-memory and map-failure
sentinels — not pairwise distinct — yet creation succeeds, so the claim
that creation fails whenever the three sentinels are not pairwise
distinct is false. (The header documents this: "`outOfMemoryCode` and
`mapFailureCode` may be equal to each other, but not to `noErrorCode`".) -/
theorem c3_equal_oom_and_fail_codes_accepted :
    (ErrorMap_Create ⟨1, 10, 0, -1, -1⟩ true).1 = .noError ∧
    (ErrorMap_Create ⟨1, 10, 0, -1, -1⟩ true).2.isSome = true := by
  decide

/-- C3 amended: creation (with allocation succeeding) yields a map exactly
when none of the three sentinel codes lies in the mapped range — taken
literally as `[minCode, maxCode]`, or `[minCode, INT32_MAX] ∪
[INT32_MIN, maxCode]` when `minCode > maxCode` — and neither the
out-of-memory code nor the map-failure code equals the no-error code (the
out-of-memory and map-failure codes may be equal to each other); every
rejected configuration is reported as a MapInvalidConfig error of the
built-in RichErrors domain. -/
theorem c3_create_validates_config (config : RERR_ErrorMapConfig) :
    (((ErrorMap_Create config true).1 = .noError ∧
        (ErrorMap_Create config true).2.isSome) ↔
      ((¬ ((config.minMappedCode ≤ config.maxMappedCode ∧
            config.minMappedCode ≤ config.noErrorCode ∧
            config.noErrorCode ≤ config.maxMappedCode) ∨
          (config.maxMappedCode < config.minMappedCode ∧
            (config.minMappedCode ≤ config.noErrorCode ∨
             config.noErrorCode ≤ config.maxMappedCode)))) ∧
       (¬ ((config.minMappedCode ≤ config.maxMappedCode ∧
            config.minMappedCode ≤ config.outOfMemoryCode ∧
            config.outOfMemoryCode ≤ config.maxMappedCode) ∨
          (config.maxMappedCode < config.minMappedCode ∧
            (config.minMappedCode ≤ config.outOfMemoryCode ∨
             config.outOfMemoryCode ≤ config.maxMappedCode)))) ∧
       (¬ ((config.minMappedCode ≤ config.maxMappedCode ∧
            config.minMappedCode ≤ config.mapFailureCode ∧
            config.mapFailureCode ≤ config.maxMappedCode) ∨
          (config.maxMappedCode < config.minMappedCode ∧
            (config.minMappedCode ≤ config.mapFailureCode ∨
             config.mapFailureCode ≤ config.maxMappedCode)))) ∧
       config.outOfMemoryCode ≠ config.noErrorCode ∧
       config.mapFailureCode ≠ config.noErrorCode)) ∧
    (∀ c m, CheckConfig config = some (c, m) →
      c = RERR_ECODE_MAP_INVALID_CONFIG ∧
      errorDomainCode (ErrorMap_Create config true).1
        = some (richErrorsName, RERR_ECODE_MAP_INVALID_CONFIG) ∧
      (ErrorMap_Create config true).2 = none) := by
  have hchk : CheckConfig config = none ↔
      (CodeIsInRange config.noErrorCode config.minMappedCode
          config.maxMappedCode = false ∧
       CodeIsInRange config.outOfMemoryCode config.minMappedCode
          config.maxMappedCode = false ∧
       CodeIsInRange config.mapFailureCode config.minMappedCode
          config.maxMappedCode = false ∧
       config.outOfMemoryCode ≠ config.noErrorCode ∧
       config.mapFailureCode ≠ config.noErrorCode) := by
    unfold CheckConfig
    split_ifs with h1 h2 h3 h4 h5 <;> simp_all
  have hrangeneg : ∀ a b c : Int, CodeIsInRange a b c = false →
      ¬ ((b ≤ c ∧ b ≤ a ∧ a ≤ c) ∨ (c < b ∧ (b ≤ a ∨ a ≤ c))) := by
    intro a b c hfalse hb
    have := (codeIsInRange_iff a b c).mpr hb
    rw [hfalse] at this
    cases this
  constructor
  · rcases hcc : CheckConfig config with _ | ⟨c, m⟩
    · have hr := hchk.mp hcc
      have h1 : (ErrorMap_Create config true).1 = .noError := by
        unfold ErrorMap_Create
        rw [hcc]
        rfl
      have h2 : (ErrorMap_Create config true).2.isSome := by
        unfold ErrorMap_Create
        rw [hcc]
        rfl
      exact ⟨fun _ => ⟨hrangeneg _ _ _ hr.1, hrangeneg _ _ _ hr.2.1,
          hrangeneg _ _ _ hr.2.2.1, hr.2.2.2.1, hr.2.2.2.2⟩,
        fun _ => ⟨h1, h2⟩⟩
    · have h1 : (ErrorMap_Create config true).1 = mkRichErrorsError c m true := by
        unfold ErrorMap_Create
        rw [hcc]
      constructor
      · intro hcontra
        rw [h1] at hcontra
        exact absurd hcontra.1 (by simp [mkRichErrorsError])
      · intro hcond
        exfalso
        have hnone : CheckConfig config = none := by
          rw [hchk]
          refine ⟨?_, ?_, ?_, hcond.2.2.2.1, hcond.2.2.2.2⟩ <;>
          · rw [Bool.eq_false_iff]
            intro hb
            rw [codeIsInRange_iff] at hb
            first
              | exact hcond.1 hb
              | exact hcond.2.1 hb
              | exact hcond.2.2.1 hb
        rw [hcc] at hnone
        cases hnone
  · intro c m hcm
    have hc : c = RERR_ECODE_MAP_INVALID_CONFIG := by
      unfold CheckConfig at hcm
      split_ifs at hcm <;> · injection hcm with h; injection h with h1 h2; omega
    refine ⟨hc, ?_, ?_⟩ <;>
    · unfold ErrorMap_Create
      rw [hcm, hc]
      try rfl

/-- Witness for C3 at concrete configurations: the standard test
configuration is accepted, and a range containing the no-error code is
rejected as MapInvalidConfig. -/
theorem c3_create_validates_config_witness :
    (ErrorMap_Create ⟨1, 32767, 0, -1, -2⟩ true).2.isSome = true ∧
    errorDomainCode (ErrorMap_Create ⟨0, 32767, 0, -1, -2⟩ true).1
      = some (richErrorsName, RERR_ECODE_MAP_INVALID_CONFIG) := by
  constructor
  · exact ((c3_create_validates_config ⟨1, 32767, 0, -1, -2⟩).1.mpr
      (by refine ⟨?_, ?_, ?_, ?_, ?_⟩ <;> decide)).2
  · exact ((c3_create_validates_config ⟨0, 32767, 0, -1, -2⟩).2
      RERR_ECODE_MAP_INVALID_CONFIG
      "Mapped code range contains no-error code" (by decide)).2.1

/-!
Structured-info map (`InfoMap.c`). A map handle is either the NULL
pointer, the zero-allocation out-of-memory sentinel
`INFOMAP_OUT_OF_MEMORY = (RERR_InfoMapPtr)-1`, or a real allocated map.
Keys are byte strings; the map's items are kept sorted by `strcmp` on the
keys. Doubles undergo no arithmetic anywhere in this code, so `double`
values are opaque with a distinguished `nan` default (what `nan("")`
produces).
-/

/-- Opaque stand-in for `double` values stored in the map. -/
inductive F64 where
  | nan
  | lit (v : Int)
deriving DecidableEq, Repr

/-- `struct Value`: the tagged union. -/
inductive InfoValue where
  | str (s : String)
  | boolean (b : Bool)
  | i64 (v : Int)
  | u64 (v : Nat)
  | f64 (v : F64)
deriving DecidableEq, Repr

/-- `struct RERR_InfoMapItem`. -/
structure RERR_InfoMapItem where
  key : List Nat
  value : InfoValue
deriving DecidableEq, Repr

instance : Inhabited RERR_InfoMapItem := ⟨⟨[], .boolean false⟩⟩

/-- `struct RERR_InfoMap`: the flag bits are individual fields. -/
structure InfoMapReal where
  immutable : Bool
  outOfMemory : Bool
  errMutateImmutable : Bool
  errNullKey : Bool
  errNullValue : Bool
  items : List RERR_InfoMapItem
  refCount : Nat
deriving DecidableEq, Repr

/-- A map handle value a caller can hold. -/
inductive InfoMapPtr where
  | null
  | oomSentinel
  | real (m : InfoMapReal)
deriving DecidableEq, Repr

/-- `ItemKeyCompare` (`strcmp` of the item's key against the key). -/
def ItemKeyCompare (it : RERR_InfoMapItem) (key : List Nat) : Int :=
  strcmp it.key key

/-- `Find`: exact binary search among the items. -/
def InfoMap_Find (m : InfoMapReal) (key : List Nat) : Option Nat :=
  DynArray_BSearchExact m.items key ItemKeyCompare

/-- `SwitchToOutOfMemory`: deallocate all item storage and set the OOM
flag (the other flags and the refcount remain valid). -/
def SwitchToOutOfMemory (m : InfoMapReal) : InfoMapReal :=
  { m with items := [], outOfMemory := true }

/-- Search part of `SetKey`: insertion-point search, then check whether
the element at the insertion point is an exact key match (overwrite in
place) or not (fresh insertion needed at that point). -/
inductive SetKeyProbe where
  | found (i : Nat)
  | insertAt (i : Nat)
deriving DecidableEq, Repr

def SetKey_Probe (items : List RERR_InfoMapItem) (key : List Nat) :
    SetKeyProbe :=
  let ip := DynArray_BSearchInsertionPoint items key ItemKeyCompare
  if ip < items.length ∧ strcmp ((items.getD ip default)).key key = 0 then
    .found ip
  else .insertAt ip

/-- `RERR_InfoMap_SetString`. `allocValue` is the `malloc` for the copied
value string (made before the key probe); `allocKey` covers the key copy
and the array-slot insertion, whose failures both switch the map to
out-of-memory mode inside `SetKey`. -/
def InfoMap_SetString (map : InfoMapPtr) (key : Option (List Nat))
    (value : Option String) (allocValue allocKey : Bool) : InfoMapPtr :=
  match map with
  | .null => .null
  | .oomSentinel => .oomSentinel
  | .real m =>
    match key with
    | none => .real { m with errNullKey := true }
    | some k =>
      match value with
      | none => .real { m with errNullValue := true }
      | some v =>
        if m.immutable then .real { m with errMutateImmutable := true }
        else if m.outOfMemory then .real m
        else if !allocValue then .real (SwitchToOutOfMemory m)
        else
          match SetKey_Probe m.items k with
          | .found i =>
            let it := m.items.getD i default
            .real { m with items := m.items.set i ⟨it.key, .str v⟩ }
          | .insertAt i =>
            if !allocKey then .real (SwitchToOutOfMemory m)
            else .real { m with items := DynArray_InsertElem m.items i ⟨k, .str v⟩ }

/-- Common body of `RERR_InfoMap_SetBool` / `SetI64` / `SetU64` / `SetF64`
(identical in the C up to the stored value; no value allocation). -/
def InfoMap_SetScalar (map : InfoMapPtr) (key : Option (List Nat))
    (value : InfoValue) (allocKey : Bool) : InfoMapPtr :=
  match map with
  | .null => .null
  | .oomSentinel => .oomSentinel
  | .real m =>
    match key with
    | none => .real { m with errNullKey := true }
    | some k =>
      if m.immutable then .real { m with errMutateImmutable := true }
      else if m.outOfMemory then .real m
      else
        match SetKey_Probe m.items k with
        | .found i =>
          let it := m.items.getD i default
          .real { m with items := m.items.set i ⟨it.key, value⟩ }
        | .insertAt i =>
          if !allocKey then .real (SwitchToOutOfMemory m)
          else .real { m with items := DynArray_InsertElem m.items i ⟨k, value⟩ }

def InfoMap_SetBool (map : InfoMapPtr) (key : Option (List Nat)) (value : Bool)
    (allocKey : Bool) : InfoMapPtr :=
  InfoMap_SetScalar map key (.boolean value) allocKey

def InfoMap_SetI64 (map : InfoMapPtr) (key : Option (List Nat)) (value : Int)
    (allocKey : Bool) : InfoMapPtr :=
  InfoMap_SetScalar map key (.i64 value) allocKey

def InfoMap_SetU64 (map : InfoMapPtr) (key : Option (List Nat)) (value : Nat)
    (allocKey : Bool) : InfoMapPtr :=
  InfoMap_SetScalar map key (.u64 value) allocKey

def InfoMap_SetF64 (map : InfoMapPtr) (key : Option (List Nat)) (value : F64)
    (allocKey : Bool) : InfoMapPtr :=
  InfoMap_SetScalar map key (.f64 value) allocKey

/-- `RERR_InfoMap_IsOutOfMemory`: the sentinel, or a real map whose OOM
flag is set. -/
def InfoMap_IsOutOfMemory (map : InfoMapPtr) : Bool :=
  match map with
  | .null => false
  | .oomSentinel => true
  | .real m => m.outOfMemory

/-- `RERR_InfoMap_GetSize`. -/
def InfoMap_GetSize (map : InfoMapPtr) : Nat :=
  match map with
  | .null => 0
  | .oomSentinel => 0
  | .real m => if m.outOfMemory then 0 else m.items.length

/-- `RERR_InfoMap_IsEmpty`. -/
def InfoMap_IsEmpty (map : InfoMapPtr) : Bool :=
  match map with
  | .null => true
  | .oomSentinel => true
  | .real m => if m.outOfMemory then true else m.items.isEmpty

/-- `RERR_InfoMap_HasProgrammingErrors`: the C function reads `map->flags`
with no NULL or sentinel check, unlike every other accessor in the file;
dereferencing the NULL pointer or the `(RERR_InfoMapPtr)-1` sentinel is
undefined behavior, modelled as `none`. On a real map (including one
degraded to OOM mode, whose flags remain valid) it reports whether any of
the three programming-error flags is set. -/
def InfoMap_HasProgrammingErrors (map : InfoMapPtr) : Option Bool :=
  match map with
  | .real m => some (m.errMutateImmutable || m.errNullKey || m.errNullValue)
  | .null => none
  | .oomSentinel => none

/-- `ConcatString`: `strncat` into a `destSize` buffer holding `dest`,
appending at most `destSize - 1 - strlen(dest)` characters. -/
def ConcatString (dest : String) (src : String) (destSize : Nat) : String :=
  if destSize = 0 then dest
  else if dest.length < destSize - 1 then
    dest ++ src.take (destSize - 1 - dest.length)
  else dest

/-- `RERR_InfoMap_GetProgrammingErrors`: like
`RERR_InfoMap_HasProgrammingErrors`, reads `map->flags` with no NULL or
sentinel guard (`none` = undefined dereference). Otherwise builds the
space-separated message for the set flags into the buffer (`destGiven` =
the `dest` pointer is non-NULL; the written contents are `none` when no
buffer is given) and returns the untruncated length plus one. -/
def InfoMap_GetProgrammingErrors (map : InfoMapPtr) (destGiven : Bool)
    (destSize : Nat) : Option (Option String × Nat) :=
  match map with
  | .null => none
  | .oomSentinel => none
  | .real m =>
    let err1 := "Attempt(s) made to mutate immutable map."
    let err2 := "Null key(s) passed to mutating function(s)."
    let err3 := "Null value(s) passed to mutating function(s)."
    let dest0 : Option String :=
      if destGiven ∧ 0 < destSize then some "" else none
    let cat := fun (d : Option String) (s : String) =>
      match d with
      | none => none
      | some dd => some (ConcatString dd s destSize)
    let acc1 : Option String × Nat :=
      if m.errMutateImmutable then (cat dest0 err1, err1.length) else (dest0, 0)
    let acc2 : Option String × Nat :=
      if m.errNullKey then
        let s := if 0 < acc1.2 then (cat acc1.1 " ", acc1.2 + 1) else acc1
        (cat s.1 err2, s.2 + err2.length)
      else acc1
    let acc3 : Option String × Nat :=
      if m.errNullValue then
        let s := if 0 < acc2.2 then (cat acc2.1 " ", acc2.2 + 1) else acc2
        (cat s.1 err3, s.2 + err3.length)
      else acc2
    some (acc3.1, acc3.2 + 1)

/-- Shared lookup of the typed getters: `NULL` map, `NULL` key,
out-of-memory map (sentinel or flag), missing key — all yield `none`;
otherwise the stored tagged value. -/
def InfoMap_LookupValue (map : InfoMapPtr) (key : Option (List Nat)) :
    Option InfoValue :=
  match map, key with
  | .real m, some k =>
    if m.outOfMemory then none
    else
      match InfoMap_Find m k with
      | some i => some ((m.items.getD i default).value)
      | none => none
  | _, _ => none

/-- `RERR_InfoMap_GetString`: `prev` is the contents the out-pointer held
before the call (`none` = the out-pointer itself is NULL); the second
component is what the out-pointer holds afterwards. The default written
before the lookup is the NULL string pointer. -/
def InfoMap_GetString (map : InfoMapPtr) (key : Option (List Nat))
    (prev : Option (Option String)) : Bool × Option (Option String) :=
  match prev with
  | none => (false, none)
  | some _ =>
    match InfoMap_LookupValue map key with
    | some (.str s) => (true, some (some s))
    | _ => (false, some none)

/-- `RERR_InfoMap_GetBool` (default `false`). -/
def InfoMap_GetBool (map : InfoMapPtr) (key : Option (List Nat))
    (prev : Option Bool) : Bool × Option Bool :=
  match prev with
  | none => (false, none)
  | some _ =>
    match InfoMap_LookupValue map key with
    | some (.boolean b) => (true, some b)
    | _ => (false, some false)

/-- `RERR_InfoMap_GetI64` (default `0`). -/
def InfoMap_GetI64 (map : InfoMapPtr) (key : Option (List Nat))
    (prev : Option Int) : Bool × Option Int :=
  match prev with
  | none => (false, none)
  | some _ =>
    match InfoMap_LookupValue map key with
    | some (.i64 v) => (true, some v)
    | _ => (false, some 0)

/-- `RERR_InfoMap_GetU64` (default `0`). -/
def InfoMap_GetU64 (map : InfoMapPtr) (key : Option (List Nat))
    (prev : Option Nat) : Bool × Option Nat :=
  match prev with
  | none => (false, none)
  | some _ =>
    match InfoMap_LookupValue map key with
    | some (.u64 v) => (true, some v)
    | _ => (false, some 0)

/-- `RERR_InfoMap_GetF64` (default `nan("")`). -/
def InfoMap_GetF64 (map : InfoMapPtr) (key : Option (List Nat))
    (prev : Option F64) : Bool × Option F64 :=
  match prev with
  | none => (false, none)
  | some _ =>
    match InfoMap_LookupValue map key with
    | some (.f64 v) => (true, some v)
    | _ => (false, some .nan)

/-- C6: mutating operations on a real info map never report failure;
instead, a NULL key sets the null-key flag and leaves the items unchanged
(shown for the string and the scalar setters); a NULL string value sets
the null-value flag; mutating an immutable map sets the mutate-immutable
flag; an allocation failure during a set — the value copy of `SetString`,
or the key-copy/insert of any setter when the key is not already present
— switches the whole map to out-of-memory mode, dropping all items and
setting the OOM flag; a map in OOM mode reads as empty (size 0, empty,
no key found) and further set operations leave it unchanged. -/
theorem c6_infomap_silent_error_policy (m : InfoMapReal) (k : List Nat)
    (v : String) (b : Bool) (allocValue allocKey : Bool) :
    (InfoMap_SetString (.real m) none (some v) allocValue allocKey
        = .real { m with errNullKey := true } ∧
      InfoMap_SetBool (.real m) none b allocKey
        = .real { m with errNullKey := true }) ∧
    (InfoMap_SetString (.real m) (some k) none allocValue allocKey
        = .real { m with errNullValue := true }) ∧
    (m.immutable = true →
      InfoMap_SetString (.real m) (some k) (some v) allocValue allocKey
          = .real { m with errMutateImmutable := true } ∧
      InfoMap_SetBool (.real m) (some k) b allocKey
          = .real { m with errMutateImmutable := true }) ∧
    (m.immutable = false → m.outOfMemory = false →
      InfoMap_SetString (.real m) (some k) (some v) false allocKey
          = .real { m with items := [], outOfMemory := true }) ∧
    (m.immutable = false → m.outOfMemory = false →
      ∀ i, SetKey_Probe m.items k = .insertAt i →
        InfoMap_SetBool (.real m) (some k) b false
            = .real { m with items := [], outOfMemory := true }) ∧
    (m.outOfMemory = true →
      InfoMap_GetSize (.real m) = 0 ∧ InfoMap_IsEmpty (.real m) = true ∧
      InfoMap_LookupValue (.real m) (some k) = none) ∧
    (m.outOfMemory = true → m.immutable = false →
      InfoMap_SetString (.real m) (some k) (some v) allocValue allocKey
          = .real m ∧
      InfoMap_SetBool (.real m) (some k) b allocKey = .real m) := by
  refine ⟨⟨rfl, rfl⟩, rfl, ?_, ?_, ?_, ?_, ?_⟩
  · intro him
    constructor
    · simp [InfoMap_SetString, him]
    · simp [InfoMap_SetBool, InfoMap_SetScalar, him]
  · intro him hoom
    simp [InfoMap_SetString, him, hoom, SwitchToOutOfMemory]
  · intro him hoom i hprobe
    simp [InfoMap_SetBool, InfoMap_SetScalar, him, hoom, hprobe,
      SwitchToOutOfMemory]
  · intro hoom
    exact ⟨by simp [InfoMap_GetSize, hoom], by simp [InfoMap_IsEmpty, hoom],
      by simp [InfoMap_LookupValue, hoom]⟩
  · intro hoom him
    constructor
    · simp [InfoMap_SetString, him, hoom]
    · simp [InfoMap_SetBool, InfoMap_SetScalar, him, hoom]

/-- Witness for C6 at concrete maps: a value-allocation failure on a
fresh map switches it to OOM mode; a set on an immutable map only flags;
a set on an OOM-mode map is a no-op. -/
theorem c6_infomap_silent_error_policy_witness :
    InfoMap_SetString (.real ⟨false, false, false, false, false, [], 1⟩)
        (some [107]) (some "x") false true
      = .real ⟨false, true, false, false, false, [], 1⟩ ∧
    InfoMap_SetBool (.real ⟨true, false, false, false, false, [], 1⟩)
        (some [107]) true true
      = .real ⟨true, false, true, false, false, [], 1⟩ ∧
    InfoMap_SetBool (.real ⟨false, true, false, false, false, [], 1⟩)
        (some [107]) true true
      = .real ⟨false, true, false, false, false, [], 1⟩ := by
  have h0 := c6_infomap_silent_error_policy
    ⟨false, false, false, false, false, [], 1⟩ [107] "x" true false true
  have h1 := c6_infomap_silent_error_policy
    ⟨true, false, false, false, false, [], 1⟩ [107] "x" true true true
  have h2 := c6_infomap_silent_error_policy
    ⟨false, true, false, false, false, [], 1⟩ [107] "x" true true true
  exact ⟨h0.2.2.2.1 rfl rfl, (h1.2.2.1 rfl).2, (h2.2.2.2.2.2.2 rfl rfl).2⟩

/-- C7 counterexample: the claim says `hasProgrammingErrors` and
`getProgrammingErrors` never dereference the zero-allocation out-of-memory
sentinel map. The C functions read `map->flags` with no sentinel check —
the only read accessors in `InfoMap.c` that do not guard the sentinel —
so calling either on the sentinel dereferences `(RERR_InfoMapPtr)-1`
(modelled as `none`, the undefined outcome). -/
theorem c7_sentinel_is_dereferenced :
    InfoMap_HasProgrammingErrors InfoMapPtr.oomSentinel = none ∧
    InfoMap_GetProgrammingErrors InfoMapPtr.oomSentinel true 256 = none :=
  ⟨rfl, rfl⟩

set_option maxRecDepth 4096 in
/-- C7 amended: the accumulated programming-error flags and their
human-readable summary are retrievable for every real map value —
including maps degraded to out-of-memory mode, whose flags remain valid —
and every other read accessor returns a safe default on the
zero-allocation sentinel; but `hasProgrammingErrors` and
`getProgrammingErrors` themselves dereference the map unconditionally and
so must not be called on the sentinel (or NULL). -/
theorem c7_flags_retrievable_on_real_maps (m : InfoMapReal) :
    (InfoMap_HasProgrammingErrors (.real m)
        = some (m.errMutateImmutable || m.errNullKey || m.errNullValue)) ∧
    (m.errMutateImmutable = true → m.errNullKey = false →
      m.errNullValue = false →
      InfoMap_GetProgrammingErrors (.real m) true 64
        = some (some "Attempt(s) made to mutate immutable map.", 41)) ∧
    InfoMap_GetSize .oomSentinel = 0 ∧
    InfoMap_IsEmpty .oomSentinel = true ∧
    InfoMap_IsOutOfMemory .oomSentinel = true ∧
    InfoMap_GetBool .oomSentinel (some [107]) (some true) = (false, some false) := by
  refine ⟨rfl, ?_, rfl, rfl, rfl, rfl⟩
  intro hmi hnk hnv
  simp only [InfoMap_GetProgrammingErrors]
  rw [hmi, hnk, hnv]
  decide

/-- Witness for C7 (amended) at a concrete map with only the
mutate-immutable flag set. -/
theorem c7_flags_retrievable_on_real_maps_witness :
    InfoMap_GetProgrammingErrors
        (.real ⟨true, false, true, false, false, [], 1⟩) true 64
      = some (some "Attempt(s) made to mutate immutable map.", 41) :=
  (c7_flags_retrievable_on_real_maps
    ⟨true, false, true, false, false, [], 1⟩).2.1 rfl rfl rfl

/-- C10: every typed getter leaves a fixed deterministic default in the
out-parameter whenever it returns `false` — `NULL` for strings, `false`
for booleans, `0` for both integer types, NaN for doubles — regardless of
what the out-parameter held before, and a NULL out-pointer makes the
getter return `false` without the out-parameter (or the map) being
touched. -/
theorem c10_getters_write_deterministic_defaults (map : InfoMapPtr)
    (key : Option (List Nat)) :
    (InfoMap_GetString map key none = (false, none) ∧
      ∀ p, (InfoMap_GetString map key (some p)).1 = false →
        (InfoMap_GetString map key (some p)).2 = some none) ∧
    (InfoMap_GetBool map key none = (false, none) ∧
      ∀ p, (InfoMap_GetBool map key (some p)).1 = false →
        (InfoMap_GetBool map key (some p)).2 = some false) ∧
    (InfoMap_GetI64 map key none = (false, none) ∧
      ∀ p, (InfoMap_GetI64 map key (some p)).1 = false →
        (InfoMap_GetI64 map key (some p)).2 = some 0) ∧
    (InfoMap_GetU64 map key none = (false, none) ∧
      ∀ p, (InfoMap_GetU64 map key (some p)).1 = false →
        (InfoMap_GetU64 map key (some p)).2 = some 0) ∧
    (InfoMap_GetF64 map key none = (false, none) ∧
      ∀ p, (InfoMap_GetF64 map key (some p)).1 = false →
        (InfoMap_GetF64 map key (some p)).2 = some F64.nan) := by
  refine ⟨⟨rfl, ?_⟩, ⟨rfl, ?_⟩, ⟨rfl, ?_⟩, ⟨rfl, ?_⟩, ⟨rfl, ?_⟩⟩ <;>
    intro p hfalse <;>
    rcases h : InfoMap_LookupValue map key with _ | v
  · simp [InfoMap_GetString, h]
  · rcases v with s | b | x | x | x <;> simp_all [InfoMap_GetString, h]
  · simp [InfoMap_GetBool, h]
  · rcases v with s | b | x | x | x <;> simp_all [InfoMap_GetBool, h]
  · simp [InfoMap_GetI64, h]
  · rcases v with s | b | x | x | x <;> simp_all [InfoMap_GetI64, h]
  · simp [InfoMap_GetU64, h]
  · rcases v with s | b | x | x | x <;> simp_all [InfoMap_GetU64, h]
  · simp [InfoMap_GetF64, h]
  · rcases v with s | b | x | x | x <;> simp_all [InfoMap_GetF64, h]

/-- Witness for C10 at a concrete map and key: a wrong-typed lookup
returns `false` and leaves the default in the out-parameter. -/
theorem c10_getters_write_deterministic_defaults_witness :
    (InfoMap_GetBool (.real ⟨false, false, false, false, false,
        [⟨[107], .i64 3⟩], 1⟩) (some [107]) (some true)).2 = some false := by
  have h := c10_getters_write_deterministic_defaults
    (.real ⟨false, false, false, false, false, [⟨[107], .i64 3⟩], 1⟩)
    (some [107])
  exact h.2.1.2 true (by decide)

end RichErrors
